import Mathlib

/-!
Shallow embedding of `src/lint/scheme.py` (SublimeLinter color-scheme
generation) and proofs about it.

Conventions of the embedding:
* Python strings are Lean `String`s; most string manipulation is done on
  `String.data : List Char`.
* Python dicts with string keys are modelled as ordered association lists
  `List (String × _)` (insertion order, unique keys; assignment replaces the
  value in place, new keys are appended), Python sets of strings as
  `Finset String`.
* The regexes of the source (`DYN_PAT` and `MARK_COLOR_RE`) are modelled by
  executable matchers with the same existence-of-a-match semantics.
  `\w` and `\d` are modelled over ASCII (hosts' scope names are ASCII).
* Filesystem paths are POSIX style; `os.path.join a b = a ++ "/" ++ b` for
  the relative second components the source uses.
* Host APIs (`sublime.*`) are external collaborators: their results
  (loaded resources, loaded settings, the previously written derived file)
  are inputs of the pass functions, per the interface contracts of the
  module's documentation.
-/

namespace SLScheme

/-- Strip a literal pattern from the front of a character list; `some r`
means the input is exactly `pat ++ r`. -/
def stripPref : List Char → List Char → Option (List Char)
  | [], s => some s
  | _ :: _, [] => none
  | p :: ps, c :: cs => if p = c then stripPref ps cs else none

theorem stripPref_eq_some {pat s r : List Char} :
    stripPref pat s = some r ↔ s = pat ++ r := by
  induction pat generalizing s with
  | nil => cases s <;> simp [stripPref]
  | cons p ps ih =>
    cases s with
    | nil => simp [stripPref]
    | cons c cs =>
      by_cases h : p = c
      · subst h
        simp [stripPref, ih]
      · rw [stripPref, if_neg h]
        constructor
        · intro hh; cases hh
        · intro hh
          injection hh with h1 h2
          exact absurd h1.symm h

/-- ASCII model of Python's regex class `\w`. -/
def wordChar (c : Char) : Bool := c.isAlpha || c.isDigit || c = '_'

/-- Model of `re.match(DYN_PAT, s)` being a match, where
`DYN_PAT = re.compile("sublimelinter\.\w+?\.style_\d{3,}")` (scheme.py line
25): the pattern has to match at the start of `s`.  Since `\w` does not
match `'.'`, the lazy `\w+?` can only stop at the maximal word-character
run, and `\d{3,}` succeeds iff at least three digits follow `"style_"`. -/
def dynMatchL (s : List Char) : Bool :=
  match stripPref "sublimelinter.".data s with
  | none => false
  | some r1 =>
    let w := r1.takeWhile wordChar
    let r2 := r1.dropWhile wordChar
    if w.isEmpty then false
    else
      match stripPref ".style_".data r2 with
      | none => false
      | some r3 => decide (3 ≤ (r3.takeWhile Char.isDigit).length)

/-- Model of `re.search(DYN_PAT, s)`: a match starting at some position. -/
def dynSearchL : List Char → Bool
  | [] => false
  | c :: t => dynMatchL (c :: t) || dynSearchL t

/-- The dynamic-scope pattern as the specification words it: the scope is
`sublimelinter.<word>.style_<n>` with `n` having at least 3 digits
(matched as an unanchored pattern, so trailing text is allowed). -/
def SpecDynScope (s : List Char) : Prop :=
  ∃ w d rest,
    s = "sublimelinter.".data ++ w ++ ".style_".data ++ d ++ rest ∧
    w ≠ [] ∧ (∀ c ∈ w, wordChar c = true) ∧
    3 ≤ d.length ∧ (∀ c ∈ d, c.isDigit = true)

theorem mem_takeWhile_sat {p : α → Bool} :
    ∀ {l : List α} {a : α}, a ∈ l.takeWhile p → p a = true := by
  intro l
  induction l with
  | nil => intro a h; simp [List.takeWhile] at h
  | cons x t ih =>
    intro a h
    rw [List.takeWhile_cons] at h
    by_cases hx : p x = true
    · simp [hx] at h
      rcases h with h | h
      · exact h ▸ hx
      · exact ih h
    · simp [hx] at h

theorem takeWhile_app_stop {p : α → Bool} {xs : List α} {y : α} {ys : List α}
    (hxs : ∀ c ∈ xs, p c = true) (hy : p y = false) :
    (xs ++ y :: ys).takeWhile p = xs := by
  induction xs with
  | nil => simp [List.takeWhile_cons, hy]
  | cons a t ih =>
    have ha : p a = true := hxs a (by simp)
    simp only [List.cons_append, List.takeWhile_cons, ha, if_true]
    rw [ih (fun c hc => hxs c (by simp [hc]))]

theorem dropWhile_app_stop {p : α → Bool} {xs : List α} {y : α} {ys : List α}
    (hxs : ∀ c ∈ xs, p c = true) (hy : p y = false) :
    (xs ++ y :: ys).dropWhile p = y :: ys := by
  induction xs with
  | nil => simp [List.dropWhile_cons, hy]
  | cons a t ih =>
    have ha : p a = true := hxs a (by simp)
    simp only [List.cons_append, List.dropWhile_cons, ha, if_true]
    exact ih (fun c hc => hxs c (by simp [hc]))

theorem takeWhile_app_all {p : α → Bool} {xs ys : List α}
    (hxs : ∀ c ∈ xs, p c = true) :
    (xs ++ ys).takeWhile p = xs ++ ys.takeWhile p := by
  induction xs with
  | nil => simp
  | cons a t ih =>
    have ha : p a = true := hxs a (by simp)
    simp only [List.cons_append, List.takeWhile_cons, ha, if_true]
    rw [ih (fun c hc => hxs c (by simp [hc]))]

/-- The executable model of `re.match(DYN_PAT, ·)` recognises exactly the
scopes of the spec's dynamic pattern. -/
theorem dynMatchL_iff_spec {s : List Char} :
    dynMatchL s = true ↔ SpecDynScope s := by
  constructor
  · intro h
    unfold dynMatchL at h
    cases hp : stripPref "sublimelinter.".data s with
    | none => rw [hp] at h; simp at h
    | some r1 =>
      rw [hp] at h
      simp only at h
      by_cases hw : (r1.takeWhile wordChar).isEmpty
      · simp [hw] at h
      · rw [if_neg hw] at h
        cases hq : stripPref ".style_".data (r1.dropWhile wordChar) with
        | none => rw [hq] at h; simp at h
        | some r3 =>
          rw [hq] at h
          simp only [decide_eq_true_eq] at h
          refine ⟨r1.takeWhile wordChar, r3.takeWhile Char.isDigit,
            r3.dropWhile Char.isDigit, ?_, ?_, ?_, h, ?_⟩
          · have h1 : s = "sublimelinter.".data ++ r1 := stripPref_eq_some.mp hp
            have h2 : r1.dropWhile wordChar = ".style_".data ++ r3 :=
              stripPref_eq_some.mp hq
            have h3 : r1.takeWhile wordChar ++ r1.dropWhile wordChar = r1 :=
              List.takeWhile_append_dropWhile wordChar r1
            have h4 : r3.takeWhile Char.isDigit ++ r3.dropWhile Char.isDigit = r3 :=
              List.takeWhile_append_dropWhile Char.isDigit r3
            calc s = "sublimelinter.".data ++ r1 := h1
              _ = "sublimelinter.".data
                  ++ (r1.takeWhile wordChar ++ r1.dropWhile wordChar) := by rw [h3]
              _ = "sublimelinter.".data
                  ++ (r1.takeWhile wordChar ++ (".style_".data ++ r3)) := by rw [h2]
              _ = "sublimelinter.".data ++ (r1.takeWhile wordChar
                  ++ (".style_".data ++ (r3.takeWhile Char.isDigit
                      ++ r3.dropWhile Char.isDigit))) := by rw [h4]
              _ = "sublimelinter.".data ++ r1.takeWhile wordChar ++ ".style_".data
                  ++ r3.takeWhile Char.isDigit ++ r3.dropWhile Char.isDigit := by
                  simp [List.append_assoc]
          · intro he
            rw [he] at hw
            simp at hw
          · intro c hc; exact mem_takeWhile_sat hc
          · intro c hc; exact mem_takeWhile_sat hc
  · rintro ⟨w, d, rest, hs, hw, hwc, hd, hdc⟩
    unfold dynMatchL
    have hdot : ".style_".data = '.' :: "style_".data := rfl
    have hp : stripPref "sublimelinter.".data s
        = some (w ++ ".style_".data ++ d ++ rest) := by
      rw [stripPref_eq_some, hs]; simp [List.append_assoc]
    rw [hp]
    simp only
    have hnw : wordChar '.' = false := by decide
    have htw : (w ++ ".style_".data ++ d ++ rest).takeWhile wordChar = w := by
      have : w ++ ".style_".data ++ d ++ rest
          = w ++ ('.' :: ("style_".data ++ d ++ rest)) := by
        rw [hdot]; simp [List.append_assoc]
      rw [this]
      exact takeWhile_app_stop hwc hnw
    have hdw : (w ++ ".style_".data ++ d ++ rest).dropWhile wordChar
        = ".style_".data ++ d ++ rest := by
      have : w ++ ".style_".data ++ d ++ rest
          = w ++ ('.' :: ("style_".data ++ d ++ rest)) := by
        rw [hdot]; simp [List.append_assoc]
      rw [this, dropWhile_app_stop hwc hnw, hdot]
      simp [List.append_assoc]
    rw [if_neg (by rw [htw]; simpa using hw)]
    have hq : stripPref ".style_".data
        ((w ++ ".style_".data ++ d ++ rest).dropWhile wordChar)
        = some (d ++ rest) := by
      rw [hdw, stripPref_eq_some]; simp [List.append_assoc]
    rw [hq]
    simp only [decide_eq_true_eq]
    calc 3 ≤ d.length := hd
    _ ≤ ((d ++ rest).takeWhile Char.isDigit).length := by
        rw [takeWhile_app_all hdc]
        simp

/-- A match at the start is in particular a match somewhere. -/
theorem dynSearchL_of_match {s : List Char} (h : dynMatchL s = true) :
    dynSearchL s = true := by
  cases s with
  | nil =>
    exfalso
    unfold dynMatchL at h
    simp [stripPref] at h
  | cons c t => simp [dynSearchL, h]

/-- Model of Python `s.endswith(t)`. -/
def pyEndsWith (s t : String) : Bool := List.isSuffixOf t.data s.data

/-- Model of Python `s.upper()` (color values are ASCII hex strings). -/
def pyUpper (s : String) : String := String.mk (s.data.map Char.toUpper)

/-- Tokens of Python `str.split()` (split on whitespace runs, no empties):
the accumulator holds the current token reversed. -/
def splitWsGo : List Char → List Char → List (List Char)
  | cur, [] => if cur.isEmpty then [] else [cur.reverse]
  | cur, c :: t =>
    if c.isWhitespace then
      if cur.isEmpty then splitWsGo [] t else cur.reverse :: splitWsGo [] t
    else splitWsGo (c :: cur) t

/-- Model of Python `s.split()` with no arguments. -/
def pySplitWs (s : String) : List String := (splitWsGo [] s.data).map String.mk

/-- A rule object of a `.sublime-color-scheme` document: an optional
`"scope"` entry plus the remaining key/value entries (string-valued in this
model; `remove_dyn_rules` and `parse_scheme_json` only ever inspect
`"scope"`). -/
structure Rule where
  scope : Option String
  others : List (String × String)
deriving DecidableEq

/-- The scopes a rule declares: `node.get("scope", "").split()`
(scheme.py line 341). -/
def declScopes (r : Rule) : List String := pySplitWs (r.scope.getD "")

/-- Loop of `JsonScheme.parse_scheme_json` (scheme.py lines 336-346):
`unfound_keys` starts as the key set of `nodes`, each rule's declared
scopes are subtracted, and the loop returns `{}` as soon as the set is
empty; otherwise the `nodes` mapping is restricted to the leftover keys. -/
def psjGo {V : Type} (nodes : List (String × V)) :
    Finset String → List Rule → List (String × V)
  | u, [] => nodes.filter (fun kv => decide (kv.1 ∈ u))
  | u, r :: rs =>
    let u2 := u \ (declScopes r).toFinset
    if u2 = ∅ then [] else psjGo nodes u2 rs

/-- Embedding of `JsonScheme.parse_scheme_json(nodes, rules=rules)` for a dict argument
`nodes` (the documented use). -/
def parse_scheme_json {V : Type} (nodes : List (String × V)) (rules : List Rule) :
    List (String × V) :=
  psjGo nodes ((nodes.map Prod.fst).toFinset) rules

/-- Behaviour of `parse_scheme_json(nodes, rules=rules)` when `nodes` is a plain list of
scope strings — this happens in `generate_color_scheme_async`'s tmTheme
branch, where `unfound` comes from `parse_scheme_xml`.  `set(nodes)` still
works, but the final dict comprehension evaluates `nodes.items()` and a
list has no `.items`, so the call raises `AttributeError` unless the loop
short-circuits.  `true` means the call returned `{}`; `false` means it
raised. -/
def psjListGo : Finset String → List Rule → Bool
  | _, [] => false
  | u, r :: rs =>
    let u2 := u \ (declScopes r).toFinset
    if u2 = ∅ then true else psjListGo u2 rs

def parse_scheme_json_on_list (scopes : List String) (rules : List Rule) : Bool :=
  psjListGo scopes.toFinset rules

/-- Whether `remove_dyn_rules` keeps a rule: it must have a `"scope"` key
whose value has no `DYN_PAT` match (scheme.py lines 369-372). -/
def dynRuleKeep (r : Rule) : Bool :=
  match r.scope with
  | some s => !dynSearchL s.data
  | none => false

/-- Embedding of `JsonScheme.remove_dyn_rules` (scheme.py lines 365-373): builds
`result_dict` by appending every kept rule in order. -/
def remove_dyn_rules (rules : List Rule) : List Rule :=
  rules.foldl (fun acc r => if dynRuleKeep r then acc ++ [r] else acc) []

/-- Python dict assignment `m[k] = v`: an existing key keeps its position
and gets the new value, a new key is appended. -/
def dictSet {V : Type} (m : List (String × V)) (k : String) (v : V) :
    List (String × V) :=
  if m.any (fun kv => kv.1 == k) then
    m.map (fun kv => if kv.1 == k then (k, v) else kv)
  else m ++ [(k, v)]

/-- Python `if not name: name = scope` (`None` and `""` are both falsy). -/
def pyNameDefault (name : Option String) (scope : String) : String :=
  match name with
  | none => scope
  | some n => if n = "" then scope else n

/-- The `husk` dict built by `JsonScheme.assemble_node` (scheme.py lines
348-358): `scope`, `name`, then the style keys of `input_dict` restricted
to `("foreground", "background", "font_style")` in input order. -/
def huskOf (scope : String) (input_dict : List (String × String))
    (name : Option String) : Rule :=
  { scope := some scope,
    others := ("name", pyNameDefault name scope)
      :: input_dict.filter
        (fun kv => kv.1 == "foreground" || kv.1 == "background" || kv.1 == "font_style") }

/-- The two per-pass registries of the `Scheme` base class. -/
structure JsonRegistries where
  static_nodes : List (String × Rule)
  dynamic_nodes : List (String × Rule)
deriving DecidableEq

/-- Embedding of `JsonScheme.assemble_node` (scheme.py lines 348-363): build the husk,
then route it on `re.match(DYN_PAT, scope)`. -/
def assemble_node_json (st : JsonRegistries) (scope : String)
    (input_dict : List (String × String)) (name : Option String) : JsonRegistries :=
  if dynMatchL scope.data then
    { st with dynamic_nodes := dictSet st.dynamic_nodes scope (huskOf scope input_dict name) }
  else
    { st with static_nodes := dictSet st.static_nodes scope (huskOf scope input_dict name) }

/-- A node assembled by `XmlScheme.assemble_node`: a `<dict>` with `name`,
`scope` and a nested `settings` dict. -/
structure XmlNode where
  name : String
  scope : String
  settings : List (String × String)
deriving DecidableEq

/-- The settings sub-dict of `XmlScheme.assemble_node` (scheme.py lines
243-250): `foreground`/`background` uppercased, `font_style` written under
the `fontStyle` key, each only when present and truthy. -/
def xmlSettingsOf (input_dict : List (String × String)) : List (String × String) :=
  (match List.lookup "foreground" input_dict with
   | some f => if f = "" then [] else [("foreground", pyUpper f)]
   | none => []) ++
  (match List.lookup "background" input_dict with
   | some b => if b = "" then [] else [("background", pyUpper b)]
   | none => []) ++
  (match List.lookup "font_style" input_dict with
   | some fs => if fs = "" then [] else [("fontStyle", fs)]
   | none => [])

def xmlHuskOf (scope : String) (input_dict : List (String × String))
    (name : Option String) : XmlNode :=
  { name := pyNameDefault name scope, scope := scope,
    settings := xmlSettingsOf input_dict }

structure XmlRegistries where
  static_nodes : List (String × XmlNode)
  dynamic_nodes : List (String × XmlNode)
deriving DecidableEq

/-- Embedding of `XmlScheme.assemble_node` (scheme.py lines 227-255): build the element,
then route it on `re.match(DYN_PAT, scope)`. -/
def assemble_node_xml (st : XmlRegistries) (scope : String)
    (input_dict : List (String × String)) (name : Option String) : XmlRegistries :=
  if dynMatchL scope.data then
    { st with dynamic_nodes := dictSet st.dynamic_nodes scope (xmlHuskOf scope input_dict name) }
  else
    { st with static_nodes := dictSet st.static_nodes scope (xmlHuskOf scope input_dict name) }

/-- State touched by `Scheme.set_scheme_path`: `self.scheme` (the `color_scheme`
value read by `get_settings`), the preference value, and how many times
`sublime.save_settings` has been called. -/
structure PrefState where
  scheme : String
  color_scheme : String
  save_calls : Nat
deriving DecidableEq

/-- Embedding of `Scheme.set_scheme_path` (scheme.py lines 151-163). -/
def set_scheme_path (st : PrefState) (path : String) : PrefState :=
  if path ≠ st.scheme then
    { st with color_scheme := path, save_calls := st.save_calls + 1 }
  else st

/-- Star-free token of the `MARK_COLOR_RE` regex (scheme.py lines 12-20):
a literal, a two-literal alternation, `\s*`, `\s*\r?\n`, `\r?\n`, `.*?`
or `.+?`.  Only match existence matters for `re.search`, so laziness is
irrelevant and each token denotes the set of prefixes it can consume. -/
inductive STok where
  | lit (cs : List Char)
  | alt2 (a b : List Char)
  | ws
  | wsNl
  | crNl
  | anyStar
  | anyPlus

/-- A token is either star-free or a starred group of star-free tokens
(the single `(?:...)*` group of `MARK_COLOR_RE` has no nested star). -/
inductive Tok where
  | base (t : STok)
  | star (ts : List STok)

/-- Remainders after `\s*` consumes a prefix. -/
def wsRems : List Char → List (List Char)
  | [] => [[]]
  | c :: t => (c :: t) :: (if c.isWhitespace then wsRems t else [])

/-- Remainders after `\s*\r?\n`: the consumed prefix is a nonempty
whitespace run whose last character is `'\n'` (equivalent to the regex by
case analysis on the `\r?`). -/
def wsNlRems : List Char → List (List Char)
  | [] => []
  | c :: t =>
    (if c = '\n' then [t] else []) ++ (if c.isWhitespace then wsNlRems t else [])

/-- Remainders after `\r?\n`. -/
def crNlRems : List Char → List (List Char)
  | '\n' :: t => [t]
  | '\r' :: '\n' :: t => [t]
  | _ => []

/-- Remainders after `.*?` (`.` matches anything but `'\n'`). -/
def dotRems : List Char → List (List Char)
  | [] => [[]]
  | c :: t => (c :: t) :: (if c = '\n' then [] else dotRems t)

def sTokRems : STok → List Char → List (List Char)
  | .lit cs, s => (stripPref cs s).toList
  | .alt2 a b, s => (stripPref a s).toList ++ (stripPref b s).toList
  | .ws, s => wsRems s
  | .wsNl, s => wsNlRems s
  | .crNl, s => crNlRems s
  | .anyStar, s => dotRems s
  | .anyPlus, s =>
    match s with
    | [] => []
    | c :: t => if c = '\n' then [] else dotRems t

def sSeqRems : List STok → List Char → List (List Char)
  | [], s => [s]
  | t :: ts, s => (sTokRems t s).flatMap (sSeqRems ts)

/-- Remainders after zero or more repetitions of a star-free group.  Only
strictly consuming repetitions are pursued, which preserves existence of a
match; the fuel (at least `s.length + 1` at the call site) bounds them. -/
def starRems : Nat → List STok → List Char → List (List Char)
  | 0, _, s => [s]
  | Nat.succ k, ts, s =>
    s :: (((sSeqRems ts s).filter (fun r => decide (r.length < s.length))).flatMap
      (starRems k ts))

def tokSeqRems : List Tok → List Char → List (List Char)
  | [], s => [s]
  | Tok.base t :: ts, s => (sTokRems t s).flatMap (tokSeqRems ts)
  | Tok.star u :: ts, s => (starRems (s.length + 1) u s).flatMap (tokSeqRems ts)

/-- The token sequence matches some prefix of `s`. -/
def matchToksAt (p : List Tok) (s : List Char) : Bool :=
  !(tokSeqRems p s).isEmpty

/-- Search semantics of `re.search`: the tokens match starting at some position. -/
def searchToks (p : List Tok) : List Char → Bool
  | [] => matchToksAt p []
  | c :: t => matchToksAt p (c :: t) || searchToks p t

/-- The regex `MARK_COLOR_RE.format(re.escape(scope))` (scheme.py lines 12-20) as a
token sequence; the grouping parentheses are irrelevant to existence. -/
def markColorToks (scope : List Char) : List Tok :=
  [Tok.base STok.ws,
   Tok.base (STok.lit ("<string>sublimelinter.".data ++ scope)),
   Tok.base (STok.lit "</string>".data), Tok.base STok.wsNl,
   Tok.base STok.ws, Tok.base (STok.lit "<key>settings</key>".data),
   Tok.base STok.wsNl,
   Tok.base STok.ws, Tok.base (STok.lit "<dict>".data), Tok.base STok.wsNl,
   Tok.star [STok.ws, STok.lit "<key>".data,
     STok.alt2 "background".data "fontStyle".data,
     STok.lit "</key>".data, STok.wsNl,
     STok.ws, STok.lit "<string>".data, STok.anyStar,
     STok.lit "</string>".data, STok.crNl],
   Tok.base STok.ws, Tok.base (STok.lit "<key>foreground</key>".data),
   Tok.base STok.wsNl,
   Tok.base STok.ws, Tok.base (STok.lit "<string>".data),
   Tok.base (STok.lit "#".data), Tok.base STok.anyPlus,
   Tok.base (STok.lit "</string>".data), Tok.base STok.wsNl]

/-- Embedding of `Scheme.parse_scheme_xml` (scheme.py lines 131-142): collect, in
order, the scopes whose `MARK_COLOR_RE` block is not found in `text`. -/
def parse_scheme_xml (nodes : List String) (text : String) : List String :=
  nodes.foldl
    (fun acc scope =>
      if searchToks (markColorToks scope.data) text.data then acc else acc ++ [scope])
    []

/-- POSIX model of `os.path.join` for the relative second components the
source passes to it. -/
def joinP (a b : String) : String := a ++ "/" ++ b

/-- Model of `os.path.basename` (POSIX): everything after the last `'/'`. -/
def basenameL (s : List Char) : List Char :=
  (s.reverse.takeWhile (fun c => !(c = '/'))).reverse

def basenameP (s : String) : String := String.mk (basenameL s.data)

/-- Split on `'/'`, keeping empty pieces. -/
def splitSlash : List Char → List (List Char)
  | [] => [[]]
  | c :: t =>
    if c = '/' then [] :: splitSlash t
    else
      match splitSlash t with
      | h :: r => (c :: h) :: r
      | [] => [[c]]

/-- Modelled from the spec: `util.get_path_components` (the `util` module
is not under src/).  Per the docstring of `packages_relative_path`
(scheme.py lines 257-266) the path's platform separators become `'/'` and
the path is handled as its components, so the components are the nonempty
`'/'`-separated pieces of the (POSIX) path. -/
def get_path_components (p : String) : List String :=
  ((splitSlash p.data).filter (fun c => !c.isEmpty)).map String.mk

/-- Python `'/'.join(components)`. -/
def joinSlash : List String → String
  | [] => ""
  | [x] => x
  | x :: y :: t => x ++ "/" ++ joinSlash (y :: t)

/-- Embedding of `XmlScheme.packages_relative_path` (scheme.py lines 257-274). -/
def packages_relative_path (path : String) (prefPackages : Bool) : String :=
  let components := get_path_components path
  let components :=
    if prefPackages && !components.isEmpty
        && !(components.headD "" == "Packages") then
      "Packages" :: components
    else components
  joinSlash components

/-- A `.sublime-color-scheme` document: the `"rules"` array plus the other
top-level entries, which the read-modify-write cycle preserves untouched
(documents handled here always carry a `"rules"` key: the engine itself
always writes one). -/
structure Theme where
  rules : List Rule
  extra : List (String × String)
deriving DecidableEq

/-- Inputs of one `JsonScheme.generate_color_scheme_async` pass.  The
resource loader's results appear as fields: `orig_rules` is
`scheme_text.get("rules", {})` of the pre-parsed structure returned for a
JSON-format theme, `orig_text` the raw text returned for a tmTheme one
(per the host interface contract of the specification, §6). -/
structure JsonEnv where
  ext : String
  usr_dir : String
  scheme_name : String
  scheme_orig : String
  static_nodes : List (String × Rule)
  dynamic_nodes : List (String × Rule)
  orig_rules : List Rule
  orig_text : String
deriving DecidableEq

/-- Observable outcome of a `JsonScheme` pass: the bare `raise Exception`
on an unknown extension, the `AttributeError` escaping from
`parse_scheme_json` when it is handed a list, the early return, or a
write of `doc` at `path` followed by `set_scheme_path pref`. -/
inductive JOut where
  | raisedExt
  | raisedAttr
  | skipped
  | wrote (path : String) (doc : Theme) (pref : String) (notice : Option (List String))
deriving DecidableEq

/-- The `unfound` value flowing into the common tail of the pass: a dict
in the `.sublime-color-scheme` branch, a plain list of scopes in the
tmTheme branch. -/
inductive Unfound where
  | dict (l : List (String × Rule))
  | scopes (l : List String)
deriving DecidableEq

def Unfound.isEmptyU : Unfound → Bool
  | .dict l => l.isEmpty
  | .scopes l => l.isEmpty

/-- Common tail of `JsonScheme.generate_color_scheme_async` (scheme.py
lines 297-334), after `unfound` has been computed by the branch on the
extension: early return when there is nothing to add, otherwise build the
document (preserving the old file's non-dynamic rules and re-checking the
still-missing scopes against them) and write it. -/
def jsonPassTail (env : JsonEnv) (oldFile : Option Theme) (uf : Unfound) : JOut :=
  if uf.isEmptyU && env.dynamic_nodes.isEmpty then .skipped
  else
    let path := joinP env.usr_dir (env.scheme_name ++ ".sublime-color-scheme")
    let dynVals := env.dynamic_nodes.map Prod.snd
    match oldFile with
    | none => .wrote path { rules := dynVals, extra := [] } env.scheme_orig none
    | some t =>
      if t.rules.isEmpty then
        .wrote path { t with rules := dynVals } env.scheme_orig none
      else
        match uf with
        | .dict l =>
          if l.isEmpty then
            .wrote path { t with rules := remove_dyn_rules t.rules ++ dynVals }
              env.scheme_orig none
          else
            let uf2 := parse_scheme_json l t.rules
            .wrote path { t with rules := remove_dyn_rules t.rules ++ dynVals }
              env.scheme_orig (if uf2.isEmpty then none else some (uf2.map Prod.fst))
        | .scopes l =>
          if l.isEmpty then
            .wrote path { t with rules := remove_dyn_rules t.rules ++ dynVals }
              env.scheme_orig none
          else if parse_scheme_json_on_list l t.rules then
            .wrote path { t with rules := remove_dyn_rules t.rules ++ dynVals }
              env.scheme_orig none
          else .raisedAttr

/-- Embedding of `JsonScheme.generate_color_scheme_async` (scheme.py lines 279-334):
dispatch on the original theme's extension, then run the common tail.
`oldFile` is the content currently at the derived path (if any). -/
def jsonPass (env : JsonEnv) (oldFile : Option Theme) : JOut :=
  if env.ext = ".sublime-color-scheme" then
    jsonPassTail env oldFile (.dict (parse_scheme_json env.static_nodes env.orig_rules))
  else if pyEndsWith env.ext "tmTheme" then
    jsonPassTail env oldFile
      (.scopes (parse_scheme_xml (env.static_nodes.map Prod.fst) env.orig_text))
  else .raisedExt

/-- The file content at the derived path after a pass. -/
def fileAfter (oldFile : Option Theme) : JOut → Option Theme
  | .wrote _ doc _ _ => some doc
  | _ => oldFile

def COLOR_SCHEME_PREAMBLE : String :=
  "<?xml version=\"1.0\" encoding=\"UTF-8\"?>\n<!DOCTYPE plist PUBLIC \"-//Apple//DTD PLIST 1.0//EN\" \"http://www.apple.com/DTDs/PropertyList-1.0.dtd\">\n"

/-- Serialization of one assembled `<dict>` node (model of
`ElementTree.tostring` restricted to the node shape `assemble_node`
builds). -/
def serializeXmlNode (n : XmlNode) : String :=
  "<dict><key>name</key><string>" ++ n.name
    ++ "</string><key>scope</key><string>" ++ n.scope
    ++ "</string><key>settings</key><dict>"
    ++ String.join (n.settings.map
        (fun kv => "<key>" ++ kv.1 ++ "</key><string>" ++ kv.2 ++ "</string>"))
    ++ "</dict></dict>"

/-- Inputs of one `XmlScheme.generate_color_scheme_async` pass.  The
parsed plist of the original theme is its style array (`./dict/array`)
with the surrounding document text abstracted as `wrapL`/`wrapR`;
`orig_text` is the same resource as raw text, used by
`parse_scheme_xml`.  `ext` sits in `self.paths` but this pass never reads
it. -/
structure XmlEnv where
  ext : String
  wrapL : String
  wrapR : String
  orig_arr : List XmlNode
  orig_text : String
  static_nodes : List (String × XmlNode)
  dynamic_nodes : List (String × XmlNode)
  usr_dir_abs : String
  usr_dir_rel : String
  scheme_name : String
deriving DecidableEq

/-- Result of an `XmlScheme` pass: the written file and its content, the
path handed to `set_scheme_path`, and the unfound-scopes notice (if
any). -/
structure XOut where
  path : String
  content : String
  pref : String
  notice : Option (List String)
deriving DecidableEq

/-- Embedding of `XmlScheme.generate_color_scheme_async` (scheme.py lines 185-225):
extend the original style array with the dynamic nodes, report missing
static scopes, write `<name> (SL).hidden-tmTheme` into the user dir, and
switch the preference to its Packages-relative path. -/
def xmlPass (env : XmlEnv) : XOut :=
  let styles := env.orig_arr ++ env.dynamic_nodes.map Prod.snd
  let unfound := parse_scheme_xml (env.static_nodes.map Prod.fst) env.orig_text
  let mod_scheme_path :=
    joinP env.usr_dir_abs ((env.scheme_name ++ " (SL)") ++ ".hidden-tmTheme")
  { path := mod_scheme_path,
    content := COLOR_SCHEME_PREAMBLE ++ env.wrapL
      ++ String.join (styles.map serializeXmlNode) ++ env.wrapR,
    pref := packages_relative_path
      (joinP env.usr_dir_rel (basenameP mod_scheme_path)) true,
    notice := if unfound.isEmpty then none else some unfound }

/-- The union of all scopes declared by a rule list. -/
def declaredScopes : List Rule → Finset String
  | [] => ∅
  | r :: rs => (declScopes r).toFinset ∪ declaredScopes rs

theorem psjGo_eq {V : Type} (nodes : List (String × V)) (rules : List Rule)
    (u : Finset String) :
    psjGo nodes u rules
      = nodes.filter (fun kv => decide (kv.1 ∈ u \ declaredScopes rules)) := by
  induction rules generalizing u with
  | nil => simp [psjGo, declaredScopes]
  | cons r rs ih =>
    simp only [psjGo, declaredScopes]
    by_cases h : u \ (declScopes r).toFinset = ∅
    · rw [if_pos h]
      have hsub : u ⊆ (declScopes r).toFinset :=
        Finset.sdiff_eq_empty_iff_subset.mp h
      symm
      rw [List.filter_eq_nil_iff]
      intro a _
      simp only [decide_eq_true_eq, Finset.mem_sdiff, Finset.mem_union]
      rintro ⟨hu, hnot⟩
      exact hnot (Or.inl (hsub hu))
    · rw [if_neg h, ih]
      apply List.filter_congr
      intro a _
      apply decide_eq_decide.mpr
      simp only [Finset.mem_sdiff, Finset.mem_union]
      tauto

theorem foldl_append_filter (p : α → Bool) (l : List α) (acc : List α) :
    l.foldl (fun acc r => if p r then acc ++ [r] else acc) acc
      = acc ++ l.filter p := by
  induction l generalizing acc with
  | nil => simp
  | cons r t ih =>
    by_cases h : p r
    · simp [List.foldl_cons, h, ih, List.filter_cons]
    · simp [List.foldl_cons, h, ih, List.filter_cons]

theorem remove_dyn_rules_eq_filter (rules : List Rule) :
    remove_dyn_rules rules = rules.filter dynRuleKeep := by
  unfold remove_dyn_rules
  rw [foldl_append_filter]
  simp

theorem mem_remove_dyn_rules {r : Rule} {rules : List Rule}
    (h : r ∈ remove_dyn_rules rules) :
    ∃ s, r.scope = some s ∧ dynSearchL s.data = false := by
  rw [remove_dyn_rules_eq_filter] at h
  have hk := (List.mem_filter.mp h).2
  unfold dynRuleKeep at hk
  cases hs : r.scope with
  | none => rw [hs] at hk; cases hk
  | some s =>
    rw [hs] at hk
    simp at hk
    exact ⟨s, rfl, hk⟩

theorem lookup_dictSet {V : Type} (m : List (String × V)) (k : String) (v : V) :
    List.lookup k (dictSet m k v) = some v := by
  unfold dictSet
  by_cases h : m.any (fun kv => kv.1 == k)
  · rw [if_pos h]
    induction m with
    | nil => simp at h
    | cons kv t ih =>
      obtain ⟨a, b⟩ := kv
      by_cases hk : a = k
      · subst hk
        simp only [List.map_cons]
        rw [if_pos (by simp : (((a, b).1 == a) = true))]
        simp [List.lookup]
      · have hne : (a == k) = false := beq_eq_false_iff_ne.mpr hk
        simp only [List.any_cons] at h
        rw [hne, Bool.false_or] at h
        simp only [List.map_cons]
        rw [if_neg (by simp [hne])]
        have hne2 : (k == a) = false := beq_eq_false_iff_ne.mpr (Ne.symm hk)
        simp only [List.lookup, hne2]
        exact ih h
  · rw [if_neg h]
    induction m with
    | nil => simp [List.lookup]
    | cons kv t ih =>
      obtain ⟨a, b⟩ := kv
      simp only [List.any_cons, Bool.or_eq_true, not_or] at h
      have hne2 : (k == a) = false := by
        apply beq_eq_false_iff_ne.mpr
        intro hh
        exact h.1 (by simp [hh])
      simp only [List.cons_append, List.lookup, hne2]
      exact ih (by simpa using h.2)

/-- Everything a successful write of the JSON pass satisfies: the path is
the deterministic derived path, the preference argument is the original
scheme's path, and the written rules are some kept rules (each with a
non-matching scope) followed by the current dynamic values. -/
theorem jsonPassTail_wrote_inv {env : JsonEnv} {oldFile : Option Theme}
    {uf : Unfound} {p : String} {doc : Theme} {pref : String}
    {n : Option (List String)}
    (h : jsonPassTail env oldFile uf = JOut.wrote p doc pref n) :
    p = joinP env.usr_dir (env.scheme_name ++ ".sublime-color-scheme") ∧
    pref = env.scheme_orig ∧
    ∃ kept, doc.rules = kept ++ env.dynamic_nodes.map Prod.snd ∧
      ∀ r ∈ kept, ∃ s, r.scope = some s ∧ dynSearchL s.data = false := by
  simp only [jsonPassTail] at h
  split at h
  · cases h
  · split at h
    · injection h with h1 h2 h3 h4
      subst h1; subst h2; subst h3
      exact ⟨rfl, rfl, [], by simp, by simp⟩
    · split at h
      · injection h with h1 h2 h3 h4
        subst h1; subst h2; subst h3
        exact ⟨rfl, rfl, [], by simp, by simp⟩
      · split at h
        · split at h
          · injection h with h1 h2 h3 h4
            subst h1; subst h2; subst h3
            refine ⟨rfl, rfl, _, rfl, ?_⟩
            intro r hr
            exact mem_remove_dyn_rules hr
          · injection h with h1 h2 h3 h4
            subst h1; subst h2; subst h3
            refine ⟨rfl, rfl, _, rfl, ?_⟩
            intro r hr
            exact mem_remove_dyn_rules hr
        · split at h
          · injection h with h1 h2 h3 h4
            subst h1; subst h2; subst h3
            refine ⟨rfl, rfl, _, rfl, ?_⟩
            intro r hr
            exact mem_remove_dyn_rules hr
          · split at h
            · injection h with h1 h2 h3 h4
              subst h1; subst h2; subst h3
              refine ⟨rfl, rfl, _, rfl, ?_⟩
              intro r hr
              exact mem_remove_dyn_rules hr
            · cases h

theorem jsonPass_wrote_inv {env : JsonEnv} {oldFile : Option Theme}
    {p : String} {doc : Theme} {pref : String} {n : Option (List String)}
    (h : jsonPass env oldFile = JOut.wrote p doc pref n) :
    p = joinP env.usr_dir (env.scheme_name ++ ".sublime-color-scheme") ∧
    pref = env.scheme_orig ∧
    ∃ kept, doc.rules = kept ++ env.dynamic_nodes.map Prod.snd ∧
      ∀ r ∈ kept, ∃ s, r.scope = some s ∧ dynSearchL s.data = false := by
  unfold jsonPass at h
  split at h
  · exact jsonPassTail_wrote_inv h
  · split at h
    · exact jsonPassTail_wrote_inv h
    · cases h

/-- C1: `parse_scheme_json(R, rules=D)` returns exactly the restriction of
`R` to the keys not declared (whitespace-separated) by any rule of `D`;
consequently the result only depends on the union of declared scopes (not
on their grouping across rules), and it is empty as soon as every required
scope is covered. -/
theorem claim_scope_diff {V : Type} (nodes : List (String × V)) (rules : List Rule) :
    parse_scheme_json nodes rules
      = nodes.filter (fun kv => decide (kv.1 ∉ declaredScopes rules)) ∧
    (∀ rules2, declaredScopes rules2 = declaredScopes rules →
      parse_scheme_json nodes rules2 = parse_scheme_json nodes rules) ∧
    ((∀ k ∈ nodes.map Prod.fst, k ∈ declaredScopes rules) →
      parse_scheme_json nodes rules = []) := by
  have hmain : ∀ rs : List Rule, parse_scheme_json nodes rs
      = nodes.filter (fun kv => decide (kv.1 ∉ declaredScopes rs)) := by
    intro rs
    unfold parse_scheme_json
    rw [psjGo_eq]
    apply List.filter_congr
    intro kv hkv
    apply decide_eq_decide.mpr
    have hk : kv.1 ∈ (nodes.map Prod.fst).toFinset := by
      rw [List.mem_toFinset]
      exact List.mem_map.mpr ⟨kv, hkv, rfl⟩
    simp [Finset.mem_sdiff, hk]
  refine ⟨hmain rules, ?_, ?_⟩
  · intro rules2 h2
    rw [hmain rules2, hmain rules, h2]
  · intro hcov
    rw [hmain rules, List.filter_eq_nil_iff]
    intro kv hkv
    simp only [decide_eq_true_eq, not_not]
    exact hcov kv.1 (List.mem_map.mpr ⟨kv, hkv, rfl⟩)

def rulesGrpA : List Rule := [{ scope := some "a b", others := [] }]

def rulesGrpB : List Rule :=
  [{ scope := some "b", others := [] }, { scope := some "a", others := [] }]

theorem claim_scope_diff_witness :
    parse_scheme_json [("a", (1 : Nat)), ("b", 2)] rulesGrpA = [] ∧
    parse_scheme_json [("a", (1 : Nat)), ("b", 2)] rulesGrpB
      = parse_scheme_json [("a", (1 : Nat)), ("b", 2)] rulesGrpA := by
  constructor
  · exact (claim_scope_diff [("a", 1), ("b", 2)] rulesGrpA).2.2 (by decide)
  · exact (claim_scope_diff [("a", 1), ("b", 2)] rulesGrpA).2.1 rulesGrpB (by decide)

/-- C2: whenever a JSON-engine pass writes the derived document, its rule
array is some kept (previously existing) rules — none of which has a scope
matching the dynamic pattern — followed by exactly the current pass's
dynamic nodes, so no stale dynamic rule survives the write. -/
theorem claim_stale_dyn_purge {env : JsonEnv} {oldFile : Option Theme}
    {p : String} {doc : Theme} {pref : String} {n : Option (List String)}
    (h : jsonPass env oldFile = JOut.wrote p doc pref n) :
    ∃ kept, doc.rules = kept ++ env.dynamic_nodes.map Prod.snd ∧
      ∀ r ∈ kept, ∃ s, r.scope = some s ∧ dynSearchL s.data = false :=
  (jsonPass_wrote_inv h).2.2

def ruleStaleW : Rule := { scope := some "sublimelinter.mark.style_999", others := [] }

def ruleUserW : Rule := { scope := some "string", others := [] }

def dynRuleW : Rule := huskOf "sublimelinter.gutter.style_002" [("foreground", "#00FF00")] none

def envW : JsonEnv :=
  { ext := ".sublime-color-scheme", usr_dir := "/pkg/User", scheme_name := "Monokai",
    scheme_orig := "Packages/T/Monokai.sublime-color-scheme",
    static_nodes := [], dynamic_nodes := [("sublimelinter.gutter.style_002", dynRuleW)],
    orig_rules := [], orig_text := "" }

def oldW : Theme := { rules := [ruleStaleW, ruleUserW], extra := [("globals", "g")] }

def docW : Theme := { rules := [ruleUserW, dynRuleW], extra := [("globals", "g")] }

theorem claim_stale_dyn_purge_witness :
    ∃ kept, docW.rules = kept ++ envW.dynamic_nodes.map Prod.snd ∧
      ∀ r ∈ kept, ∃ s, r.scope = some s ∧ dynSearchL s.data = false :=
  @claim_stale_dyn_purge envW (some oldW) "/pkg/User/Monokai.sublime-color-scheme"
    docW "Packages/T/Monokai.sublime-color-scheme" none (by decide)

/-- C3: in both engines `assemble_node` routes a scope matching
`sublimelinter.<word>.style_<n>` (n with at least 3 digits) into
`dynamic_nodes` under that scope and every other scope into
`static_nodes`, leaving the other registry untouched; the routing
predicate of the code (`re.match(DYN_PAT, ·)`) coincides with the spec's
pattern. -/
theorem claim_dyn_classification :
    (∀ s : String, dynMatchL s.data = true ↔ SpecDynScope s.data) ∧
    (∀ (st : JsonRegistries) (scope : String) (d : List (String × String))
        (nm : Option String),
      (SpecDynScope scope.data →
        List.lookup scope (assemble_node_json st scope d nm).dynamic_nodes
          = some (huskOf scope d nm) ∧
        (assemble_node_json st scope d nm).static_nodes = st.static_nodes) ∧
      (¬SpecDynScope scope.data →
        List.lookup scope (assemble_node_json st scope d nm).static_nodes
          = some (huskOf scope d nm) ∧
        (assemble_node_json st scope d nm).dynamic_nodes = st.dynamic_nodes)) ∧
    (∀ (st : XmlRegistries) (scope : String) (d : List (String × String))
        (nm : Option String),
      (SpecDynScope scope.data →
        List.lookup scope (assemble_node_xml st scope d nm).dynamic_nodes
          = some (xmlHuskOf scope d nm) ∧
        (assemble_node_xml st scope d nm).static_nodes = st.static_nodes) ∧
      (¬SpecDynScope scope.data →
        List.lookup scope (assemble_node_xml st scope d nm).static_nodes
          = some (xmlHuskOf scope d nm) ∧
        (assemble_node_xml st scope d nm).dynamic_nodes = st.dynamic_nodes)) := by
  refine ⟨fun s => dynMatchL_iff_spec, ?_, ?_⟩
  · intro st scope d nm
    constructor
    · intro hd
      have hb : dynMatchL scope.data = true := dynMatchL_iff_spec.mpr hd
      unfold assemble_node_json
      rw [if_pos hb]
      exact ⟨lookup_dictSet st.dynamic_nodes scope (huskOf scope d nm), rfl⟩
    · intro hd
      have hb : ¬dynMatchL scope.data = true := fun hh => hd (dynMatchL_iff_spec.mp hh)
      unfold assemble_node_json
      rw [if_neg hb]
      exact ⟨lookup_dictSet st.static_nodes scope (huskOf scope d nm), rfl⟩
  · intro st scope d nm
    constructor
    · intro hd
      have hb : dynMatchL scope.data = true := dynMatchL_iff_spec.mpr hd
      unfold assemble_node_xml
      rw [if_pos hb]
      exact ⟨lookup_dictSet st.dynamic_nodes scope (xmlHuskOf scope d nm), rfl⟩
    · intro hd
      have hb : ¬dynMatchL scope.data = true := fun hh => hd (dynMatchL_iff_spec.mp hh)
      unfold assemble_node_xml
      rw [if_neg hb]
      exact ⟨lookup_dictSet st.static_nodes scope (xmlHuskOf scope d nm), rfl⟩

theorem claim_dyn_classification_witness :
    List.lookup "sublimelinter.mark.style_001"
      (assemble_node_json ⟨[], []⟩ "sublimelinter.mark.style_001"
        [("foreground", "#FF0000")] none).dynamic_nodes
      = some (huskOf "sublimelinter.mark.style_001" [("foreground", "#FF0000")] none) ∧
    List.lookup "comment"
      (assemble_node_xml ⟨[], []⟩ "comment" [] none).static_nodes
      = some (xmlHuskOf "comment" [] none) := by
  constructor
  · exact ((claim_dyn_classification.2.1 ⟨[], []⟩ "sublimelinter.mark.style_001"
      [("foreground", "#FF0000")] none).1 (dynMatchL_iff_spec.mp (by decide))).1
  · exact ((claim_dyn_classification.2.2 ⟨[], []⟩ "comment" [] none).2
      (fun hsp => absurd (dynMatchL_iff_spec.mpr hsp) (by decide))).1

/-- C9: `set_scheme_path` neither writes the preference nor calls the
persist operation when the new path equals the currently active scheme
path; when the paths differ, it writes the preference and persists. -/
theorem claim_pref_write_suppression (st : PrefState) (path : String) :
    (path = st.scheme → set_scheme_path st path = st) ∧
    (path ≠ st.scheme →
      (set_scheme_path st path).color_scheme = path ∧
      (set_scheme_path st path).save_calls = st.save_calls + 1 ∧
      (set_scheme_path st path).scheme = st.scheme) := by
  constructor
  · intro h
    unfold set_scheme_path
    rw [if_neg (by simp [h])]
  · intro h
    unfold set_scheme_path
    rw [if_pos h]
    exact ⟨rfl, rfl, rfl⟩

theorem claim_pref_write_suppression_witness :
    set_scheme_path ⟨"a", "a", 0⟩ "a" = ⟨"a", "a", 0⟩ ∧
    (set_scheme_path ⟨"a", "a", 0⟩ "b").color_scheme = "b" ∧
    (set_scheme_path ⟨"a", "a", 0⟩ "b").save_calls = 0 + 1 := by
  refine ⟨(claim_pref_write_suppression ⟨"a", "a", 0⟩ "a").1 rfl, ?_, ?_⟩
  · exact ((claim_pref_write_suppression ⟨"a", "a", 0⟩ "b").2 (by decide)).1
  · exact ((claim_pref_write_suppression ⟨"a", "a", 0⟩ "b").2 (by decide)).2.1

/-- C10: `remove_dyn_rules` keeps exactly the rules that have a `"scope"`
key whose value does not contain the dynamic pattern; in particular a rule
without a `"scope"` key is dropped even though it is not a dynamic
rule. -/
theorem claim_remove_dyn_drops_scopeless :
    (∀ rules : List Rule, remove_dyn_rules rules
      = rules.filter (fun r =>
          match r.scope with
          | some s => !dynSearchL s.data
          | none => false)) ∧
    (∀ (rules : List Rule) (r : Rule), r ∈ rules → r.scope = none →
      r ∉ remove_dyn_rules rules) := by
  constructor
  · intro rules
    exact remove_dyn_rules_eq_filter rules
  · intro rules r _ hnone hmem
    obtain ⟨s, hs, _⟩ := mem_remove_dyn_rules hmem
    rw [hnone] at hs
    cases hs

theorem claim_remove_dyn_drops_scopeless_witness :
    ({ scope := none, others := [("background", "blue")] } : Rule)
      ∉ remove_dyn_rules [{ scope := none, others := [("background", "blue")] }] :=
  claim_remove_dyn_drops_scopeless.2
    [{ scope := none, others := [("background", "blue")] }]
    { scope := none, others := [("background", "blue")] } (by simp) rfl

def dynRuleT : Rule := huskOf "sublimelinter.gutter.style_001" [("foreground", "#00FF00")] none

def envT4 : JsonEnv :=
  { ext := ".tmTheme", usr_dir := "/pkg/User", scheme_name := "Monokai",
    scheme_orig := "Packages/T/Monokai.tmTheme",
    static_nodes := [("sublimelinter.mark.error",
      huskOf "sublimelinter.mark.error" [("foreground", "#FF0000")] none)],
    dynamic_nodes := [("sublimelinter.gutter.style_001", dynRuleT)],
    orig_rules := [], orig_text := "" }

def docT4 : Theme := { rules := [dynRuleT], extra := [] }

/-- C4 (code bug): with the JSON engine on a tmTheme-extension theme whose
text lacks a required static scope, the first pass writes the derived
document, but the second pass — reading the file the first one wrote —
raises (`parse_scheme_json` is handed the list of unfound scopes and its
final dict comprehension calls `.items()` on a list) instead of
reproducing the same bytes. -/
theorem claim_idempotence_code_bug :
    jsonPass envT4 none
      = JOut.wrote "/pkg/User/Monokai.sublime-color-scheme" docT4
          "Packages/T/Monokai.tmTheme" none ∧
    jsonPass envT4 (fileAfter none (jsonPass envT4 none)) = JOut.raisedAttr := by
  constructor
  · decide
  · decide

def envS7 : JsonEnv :=
  { ext := ".sublime-color-scheme", usr_dir := "/pkg/User", scheme_name := "M",
    scheme_orig := "Packages/T/M.sublime-color-scheme",
    static_nodes := [], dynamic_nodes := [], orig_rules := [], orig_text := "" }

def envF7 : JsonEnv :=
  { ext := ".tmTheme", usr_dir := "/pkg/User", scheme_name := "M",
    scheme_orig := "Packages/T/M.tmTheme",
    static_nodes := [("sublimelinter.mark.warning",
      huskOf "sublimelinter.mark.warning" [("foreground", "#FFAA00")] none)],
    dynamic_nodes := [], orig_rules := [], orig_text := "" }

def oldF7 : Theme :=
  { rules := [{ scope := some "comment", others := [("foreground", "#777777")] }],
    extra := [] }

/-- C7 (code bug): the no-op fast path does hold — with no missing scopes,
no dynamic nodes and no prior derived file the pass skips and the
filesystem is untouched — but the claimed converse fails: on a
tmTheme-extension theme with a missing static scope (something changed)
and a prior derived file whose rules do not cover it, the pass raises in
the recheck instead of performing the write. -/
theorem claim_noop_fast_path_check :
    jsonPass envS7 none = JOut.skipped ∧
    fileAfter none (jsonPass envS7 none) = none ∧
    jsonPass envF7 (some oldF7) = JOut.raisedAttr ∧
    fileAfter (some oldF7) (jsonPass envF7 (some oldF7)) = some oldF7 := by
  refine ⟨by decide, by decide, by decide, by decide⟩

theorem strData_append (a b : String) : (a ++ b).data = a.data ++ b.data := rfl

theorem strEq_of_data : ∀ {a b : String}, a.data = b.data → a = b
  | ⟨_⟩, ⟨_⟩, h => congrArg String.mk h

theorem slFname_eq (n : String) :
    (n ++ " (SL)") ++ ".hidden-tmTheme" = n ++ " (SL).hidden-tmTheme" := by
  apply strEq_of_data
  show (n.data ++ " (SL)".data) ++ ".hidden-tmTheme".data
      = n.data ++ " (SL).hidden-tmTheme".data
  rw [List.append_assoc]
  congr 1

theorem basenameL_after_slash {xs ys : List Char} (hys : ∀ c ∈ ys, c ≠ '/') :
    basenameL (xs ++ '/' :: ys) = ys := by
  unfold basenameL
  have hrev : (xs ++ '/' :: ys).reverse = ys.reverse ++ '/' :: xs.reverse := by
    simp
  rw [hrev, takeWhile_app_stop (p := fun c => !(c = '/'))
    (fun c hc => by simp [hys c (List.mem_reverse.mp hc)]) (by simp),
    List.reverse_reverse]

theorem basenameP_joinP (a b : String) (h : ∀ c ∈ b.data, c ≠ '/') :
    basenameP (joinP a b) = b := by
  apply strEq_of_data
  show basenameL ((a.data ++ ['/']) ++ b.data) = b.data
  rw [List.append_assoc]
  exact basenameL_after_slash h

theorem splitSlash_noSlash {xs : List Char} (hxs : ∀ c ∈ xs, c ≠ '/') :
    splitSlash xs = [xs] := by
  induction xs with
  | nil => rfl
  | cons c t ih =>
    unfold splitSlash
    rw [if_neg (hxs c (by simp)), ih (fun x hx => hxs x (by simp [hx]))]

theorem splitSlash_app_slash {xs ys : List Char} (hxs : ∀ c ∈ xs, c ≠ '/') :
    splitSlash (xs ++ '/' :: ys) = xs :: splitSlash ys := by
  induction xs with
  | nil => simp [splitSlash]
  | cons c t ih =>
    have hc : c ≠ '/' := hxs c (by simp)
    have ht := ih (fun x hx => hxs x (by simp [hx]))
    show splitSlash (c :: (t ++ '/' :: ys)) = (c :: t) :: splitSlash ys
    rw [splitSlash, if_neg hc, ht]

theorem prp_user_sl (f : String) (hf : ∀ c ∈ f.data, c ≠ '/') (hne : f.data ≠ []) :
    packages_relative_path (joinP "User/SublimeLinter" f) true
      = "Packages/User/SublimeLinter/" ++ f := by
  have hUser : ∀ c ∈ "User".data, c ≠ '/' := by decide
  have hSub : ∀ c ∈ "SublimeLinter".data, c ≠ '/' := by decide
  have hfe : f.data.isEmpty = false := by
    cases hfd : f.data with
    | nil => exact absurd hfd hne
    | cons a t => rfl
  have hdata : (joinP "User/SublimeLinter" f).data
      = "User".data ++ '/' :: ("SublimeLinter".data ++ '/' :: f.data) := by
    show ("User/SublimeLinter".data ++ ['/']) ++ f.data
        = "User".data ++ '/' :: ("SublimeLinter".data ++ '/' :: f.data)
    rw [List.append_assoc]
    rfl
  have hcomp : get_path_components (joinP "User/SublimeLinter" f)
      = ["User", "SublimeLinter", String.mk f.data] := by
    unfold get_path_components
    rw [hdata, splitSlash_app_slash hUser, splitSlash_app_slash hSub,
      splitSlash_noSlash hf]
    simp [List.filter, hfe]
  unfold packages_relative_path
  rw [hcomp]
  have hcond : (true && !(["User", "SublimeLinter", String.mk f.data].isEmpty)
      && !(["User", "SublimeLinter", String.mk f.data].headD "" == "Packages")) = true := by
    rfl
  simp only [hcond, if_true]
  show ("Packages" ++ "/" ++ ("User" ++ "/" ++ ("SublimeLinter" ++ "/" ++ String.mk f.data)))
      = "Packages/User/SublimeLinter/" ++ f
  apply strEq_of_data
  show ("Packages".data ++ ['/']) ++ (("User".data ++ ['/'])
      ++ (("SublimeLinter".data ++ ['/']) ++ f.data))
      = "Packages/User/SublimeLinter/".data ++ f.data
  simp only [List.append_assoc]
  rfl

/-- The written path and the preference path of an XML pass, under the
paths `get_settings` actually produces (`usr_dir_abs` below the packages
root, `usr_dir_rel = "User/SublimeLinter"`). -/
theorem xml_out_paths (env : XmlEnv) (pkg : String)
    (habs : env.usr_dir_abs = joinP pkg "User/SublimeLinter")
    (hrel : env.usr_dir_rel = "User/SublimeLinter")
    (hn : ∀ c ∈ env.scheme_name.data, c ≠ '/') :
    (xmlPass env).path
      = pkg ++ "/User/SublimeLinter/" ++ (env.scheme_name ++ " (SL).hidden-tmTheme") ∧
    (xmlPass env).pref
      = "Packages/User/SublimeLinter/" ++ (env.scheme_name ++ " (SL).hidden-tmTheme") := by
  have hlit1 : ∀ c ∈ " (SL)".data, c ≠ '/' := by decide
  have hlit2 : ∀ c ∈ ".hidden-tmTheme".data, c ≠ '/' := by decide
  have hf : ∀ c ∈ ((env.scheme_name ++ " (SL)") ++ ".hidden-tmTheme").data, c ≠ '/' := by
    intro c hc
    rw [strData_append, strData_append] at hc
    rcases List.mem_append.mp hc with hc1 | hc2
    · rcases List.mem_append.mp hc1 with hca | hcb
      · exact hn c hca
      · exact hlit1 c hcb
    · exact hlit2 c hc2
  have hnef : ((env.scheme_name ++ " (SL)") ++ ".hidden-tmTheme").data ≠ [] := by
    rw [strData_append]
    intro hh
    have := List.append_eq_nil.mp hh
    cases this.2
  have hpath : (xmlPass env).path
      = joinP env.usr_dir_abs ((env.scheme_name ++ " (SL)") ++ ".hidden-tmTheme") := rfl
  constructor
  · rw [hpath, habs]
    apply strEq_of_data
    show (((pkg.data ++ ['/']) ++ "User/SublimeLinter".data) ++ ['/'])
        ++ ((env.scheme_name.data ++ " (SL)".data) ++ ".hidden-tmTheme".data)
        = (pkg.data ++ "/User/SublimeLinter/".data)
          ++ (env.scheme_name.data ++ " (SL).hidden-tmTheme".data)
    simp only [List.append_assoc]
    congr 1
  · have hpref : (xmlPass env).pref
        = packages_relative_path
            (joinP env.usr_dir_rel
              (basenameP (joinP env.usr_dir_abs
                ((env.scheme_name ++ " (SL)") ++ ".hidden-tmTheme")))) true := rfl
    rw [hpref, basenameP_joinP _ _ hf, hrel, prp_user_sl _ hf hnef]
    rw [slFname_eq]

def dynRule5 : Rule := huskOf "sublimelinter.gutter.style_003" [("foreground", "#0000FF")] none

def env5 : JsonEnv :=
  { ext := ".sublime-color-scheme", usr_dir := "/pkg/User", scheme_name := "Mariana",
    scheme_orig := "Packages/Color Scheme - Default/Mariana.sublime-color-scheme",
    static_nodes := [], dynamic_nodes := [("sublimelinter.gutter.style_003", dynRule5)],
    orig_rules := [], orig_text := "" }

/-- C5 counterexample: a JSON-engine pass that writes the derived file at
`/pkg/User/Mariana.sublime-color-scheme` hands `set_scheme_path` the
original scheme's path, not the path of the file it just wrote. -/
theorem claim_switch_counterexample :
    jsonPass env5 none
      = JOut.wrote "/pkg/User/Mariana.sublime-color-scheme"
          { rules := [dynRule5], extra := [] }
          "Packages/Color Scheme - Default/Mariana.sublime-color-scheme" none ∧
    "Packages/Color Scheme - Default/Mariana.sublime-color-scheme"
      ≠ "/pkg/User/Mariana.sublime-color-scheme" := by
  exact ⟨by decide, by decide⟩

/-- C5 amended: after a write, the JSON engine passes the original
scheme's path to the preference setter (the derived file overrides it by
name), while the XML engine passes the Packages-relative path of the file
it just wrote. -/
theorem claim_switch_amended :
    (∀ (env : JsonEnv) (oldFile : Option Theme) (p : String) (doc : Theme)
        (pref : String) (n : Option (List String)),
      jsonPass env oldFile = JOut.wrote p doc pref n → pref = env.scheme_orig) ∧
    (∀ (env : XmlEnv) (pkg : String),
      env.usr_dir_abs = joinP pkg "User/SublimeLinter" →
      env.usr_dir_rel = "User/SublimeLinter" →
      (∀ c ∈ env.scheme_name.data, c ≠ '/') →
      (xmlPass env).path
        = pkg ++ "/User/SublimeLinter/" ++ (env.scheme_name ++ " (SL).hidden-tmTheme") ∧
      (xmlPass env).pref
        = "Packages/User/SublimeLinter/"
          ++ (env.scheme_name ++ " (SL).hidden-tmTheme")) := by
  constructor
  · intro env o p doc pref n h
    exact (jsonPass_wrote_inv h).2.1
  · intro env pkg habs hrel hn
    exact xml_out_paths env pkg habs hrel hn

def envX5 : XmlEnv :=
  { ext := ".tmTheme", wrapL := "<L>", wrapR := "</L>", orig_arr := [], orig_text := "",
    static_nodes := [], dynamic_nodes := [], usr_dir_abs := "/pkg/User/SublimeLinter",
    usr_dir_rel := "User/SublimeLinter", scheme_name := "Mariana" }

theorem claim_switch_amended_witness :
    "Packages/Color Scheme - Default/Mariana.sublime-color-scheme"
      = env5.scheme_orig ∧
    (xmlPass envX5).path
      = "/pkg" ++ "/User/SublimeLinter/" ++ (envX5.scheme_name ++ " (SL).hidden-tmTheme") ∧
    (xmlPass envX5).pref
      = "Packages/User/SublimeLinter/" ++ (envX5.scheme_name ++ " (SL).hidden-tmTheme") := by
  refine ⟨?_, ?_⟩
  · exact claim_switch_amended.1 env5 none "/pkg/User/Mariana.sublime-color-scheme"
      { rules := [dynRule5], extra := [] }
      "Packages/Color Scheme - Default/Mariana.sublime-color-scheme" none (by decide)
  · exact claim_switch_amended.2 envX5 "/pkg" (by decide) rfl (by decide)

def dynRule6 : Rule := huskOf "sublimelinter.gutter.style_004" [("foreground", "#00FFFF")] none

def env6 : JsonEnv :=
  { ext := ".sublime-color-scheme", usr_dir := "/pkg/User", scheme_name := "Monokai",
    scheme_orig := "Packages/T/Monokai.sublime-color-scheme",
    static_nodes := [], dynamic_nodes := [("sublimelinter.gutter.style_004", dynRule6)],
    orig_rules := [], orig_text := "" }

/-- C6 counterexample: the JSON engine's derived filename has no " (SL)"
marker — the claimed shape `<name> (SL).<suffix>` is wrong for it. -/
theorem claim_filename_counterexample :
    jsonPass env6 none
      = JOut.wrote "/pkg/User/Monokai.sublime-color-scheme"
          { rules := [dynRule6], extra := [] }
          "Packages/T/Monokai.sublime-color-scheme" none ∧
    basenameP "/pkg/User/Monokai.sublime-color-scheme" = "Monokai.sublime-color-scheme" ∧
    List.isPrefixOf "Monokai (SL)".data "Monokai.sublime-color-scheme".data = false := by
  exact ⟨by decide, by decide, by decide⟩

/-- C6 amended: each engine's derived path is a deterministic function of
the original theme's base name — `<name>.sublime-color-scheme` under the
user dir for the JSON engine, `<name> (SL).hidden-tmTheme` under the
SublimeLinter user dir for the XML engine — so repeated passes overwrite
one file per engine rather than accumulating files. -/
theorem claim_filename_amended :
    (∀ (env : JsonEnv) (oldFile : Option Theme) (p : String) (doc : Theme)
        (pref : String) (n : Option (List String)),
      jsonPass env oldFile = JOut.wrote p doc pref n →
      p = joinP env.usr_dir (env.scheme_name ++ ".sublime-color-scheme")) ∧
    (∀ env : XmlEnv, (xmlPass env).path
      = joinP env.usr_dir_abs (env.scheme_name ++ " (SL).hidden-tmTheme")) := by
  constructor
  · intro env o p doc pref n h
    exact (jsonPass_wrote_inv h).1
  · intro env
    show joinP env.usr_dir_abs ((env.scheme_name ++ " (SL)") ++ ".hidden-tmTheme") = _
    rw [slFname_eq]

def envX6 : XmlEnv :=
  { ext := ".tmTheme", wrapL := "<L>", wrapR := "</L>", orig_arr := [], orig_text := "",
    static_nodes := [], dynamic_nodes := [], usr_dir_abs := "/pkg/User/SublimeLinter",
    usr_dir_rel := "User/SublimeLinter", scheme_name := "Monokai" }

theorem claim_filename_amended_witness :
    "/pkg/User/Monokai.sublime-color-scheme"
      = joinP env6.usr_dir (env6.scheme_name ++ ".sublime-color-scheme") ∧
    (xmlPass envX6).path
      = joinP envX6.usr_dir_abs (envX6.scheme_name ++ " (SL).hidden-tmTheme") := by
  constructor
  · exact claim_filename_amended.1 env6 none "/pkg/User/Monokai.sublime-color-scheme"
      { rules := [dynRule6], extra := [] }
      "Packages/T/Monokai.sublime-color-scheme" none (by decide)
  · exact claim_filename_amended.2 envX6

def envX8 : XmlEnv :=
  { ext := ".xyz", wrapL := "<P>", wrapR := "</P>", orig_arr := [], orig_text := "",
    static_nodes := [], dynamic_nodes := [], usr_dir_abs := "/pkg/User/SublimeLinter",
    usr_dir_rel := "User/SublimeLinter", scheme_name := "M" }

/-- C8 counterexample: a generation pass of the XML engine with an
unrecognised theme extension does not raise — it completes and writes the
derived file (only the JSON engine checks the extension). -/
theorem claim_ext_counterexample :
    ¬(envX8.ext = ".sublime-color-scheme" ∨ pyEndsWith envX8.ext "tmTheme" = true) ∧
    xmlPass envX8
      = { path := "/pkg/User/SublimeLinter/M (SL).hidden-tmTheme",
          content := COLOR_SCHEME_PREAMBLE ++ "<P>" ++ "" ++ "</P>",
          pref := "Packages/User/SublimeLinter/M (SL).hidden-tmTheme",
          notice := none } := by
  exact ⟨by decide, by decide⟩

/-- C8 amended: in the JSON engine an extension that is neither
`.sublime-color-scheme` nor a tmTheme one makes the pass raise before
doing anything else; the XML engine never inspects the extension (its
output is independent of it). -/
theorem claim_ext_amended :
    (∀ (env : JsonEnv) (oldFile : Option Theme),
      env.ext ≠ ".sublime-color-scheme" → pyEndsWith env.ext "tmTheme" = false →
      jsonPass env oldFile = JOut.raisedExt) ∧
    (∀ (env : XmlEnv) (e : String), xmlPass { env with ext := e } = xmlPass env) := by
  constructor
  · intro env o h1 h2
    unfold jsonPass
    rw [if_neg h1, if_neg (by simp [h2])]
  · intro env e
    rfl

def envJ8 : JsonEnv :=
  { ext := ".xyz", usr_dir := "/pkg/User", scheme_name := "M",
    scheme_orig := "Packages/T/M.xyz", static_nodes := [], dynamic_nodes := [],
    orig_rules := [], orig_text := "" }

theorem claim_ext_amended_witness :
    jsonPass envJ8 none = JOut.raisedExt ∧
    xmlPass { envX8 with ext := ".abc" } = xmlPass envX8 := by
  constructor
  · exact claim_ext_amended.1 envJ8 none (by decide) (by decide)
  · exact claim_ext_amended.2 envX8 ".abc"

end SLScheme
